import Mathlib

/-!
Verification development for the website-clone pipeline backend
(`backend/app/main.py`).

Python strings are modelled as `List Char`.  The constant regular
expressions of the sanitizer are embedded as deterministic scanners: for
each pattern the Python engine's leftmost-match/backtracking behaviour
collapses to a deterministic matcher, and `re.sub` is the generic `subst`
combinator below (scan left to right, on a match emit the replacement and
continue after the match, otherwise emit one character and advance).
The `\s` class, `str.strip()` and `str.lower()` are modelled on the ASCII
range.  The LLM provider (`llm_providers.py`) is an external capability
and is modelled as an oracle giving the outcome of each call; the network
scraper is likewise abstracted as an outcome parameter of the pipeline.
File contents are tagged (`text` for HTML bodies, `meta` for the JSON
sidecar) so that JSON (de)serialisation by the external `json` module is
abstracted while the store structure is kept.
-/

/-- Characters of the base64 alphabet `[A-Za-z0-9+/]` used by the
long-run-stripping pattern of `clean_generated_html`. -/
def isBase64Char (c : Char) : Bool :=
  (decide ('A' ≤ c) && decide (c ≤ 'Z')) ||
  (decide ('a' ≤ c) && decide (c ≤ 'z')) ||
  (decide ('0' ≤ c) && decide (c ≤ '9')) ||
  c == '+' || c == '/'

/-- ASCII model of Python's whitespace class (used by `\s` and
`str.strip()`). -/
def isPySpace (c : Char) : Bool :=
  c == ' ' || c == '\t' || c == '\n' || c == '\r' || c == '\x0B' || c == '\x0C'

/-- Index of the first occurrence of `pat` in `s`, if any. -/
def findSub (pat : List Char) : List Char → Option Nat
  | [] => if pat.isPrefixOf [] then some 0 else none
  | c :: cs =>
    if pat.isPrefixOf (c :: cs) then some 0 else (findSub pat cs).map (· + 1)

/-- Substring test, the model of Python's `in` operator on strings. -/
def containsSub (pat s : List Char) : Bool :=
  (findSub pat s).isSome

/-- ASCII lowercasing, the model of `str.lower()` and of case-insensitive
matching. -/
def lowerL (s : List Char) : List Char :=
  s.map Char.toLower

/-- Case-insensitive prefix test against a lowercase pattern. -/
def ciAt (pat s : List Char) : Bool :=
  pat.isPrefixOf (lowerL s)

/-- Index of the first case-insensitive occurrence of the lowercase
pattern `pat` in `s`. -/
def ciFindSub (pat : List Char) : List Char → Option Nat
  | [] => if pat.isPrefixOf [] then some 0 else none
  | c :: cs =>
    if ciAt pat (c :: cs) then some 0 else (ciFindSub pat cs).map (· + 1)

/-- Model of `str.strip()`: drop leading and trailing whitespace. -/
def pyStrip (s : List Char) : List Char :=
  List.rdropWhile isPySpace (List.dropWhile isPySpace s)

/-- Generic model of `re.sub` for the constant patterns of this program,
written with explicit fuel so that it is structurally recursive: `m` is
the matcher at one position, returning the length of the match (always
positive for the patterns embedded here) and the replacement.  The scan
emits the replacement and continues after a match, otherwise emits one
character and advances, so the input length bounds the number of steps. -/
def substFuel (m : List Char → Option (Nat × List Char)) : Nat → List Char → List Char
  | _, [] => []
  | 0, _ :: _ => []
  | fuel + 1, c :: cs =>
    match m (c :: cs) with
    | some (n, r) => r ++ substFuel m fuel (List.drop (n - 1) cs)
    | none => c :: substFuel m fuel cs

/-- Model of `re.sub`: the scan with enough fuel to finish. -/
def subst (m : List Char → Option (Nat × List Char)) (s : List Char) : List Char :=
  substFuel m s.length s

/-- Matching a literal: consume `p` from the front of `s`. -/
def lit (p s : List Char) : Option (List Char) :=
  if p.isPrefixOf s then some (List.drop p.length s) else none

/-- Length consumed by the optional quote `[\'"]?` (it is consumed
exactly when present, since the following literal starts with `d`). -/
def optQuoteLen : List Char → Nat
  | c :: _ => if c = '\x27' ∨ c = '"' then 1 else 0
  | [] => 0

/-- Continuation of the `url\([\'"]?data:image[^)]+\)` matcher after the
literal `url(`: skip the optional quote, require `data:image`, then a
nonempty run of non-`)` characters and the closing parenthesis. -/
def matchDataImageTail (qn : Nat) (s1 : List Char) : Option (Nat × List Char) :=
  match lit ("data:image".toList) (List.drop qn s1) with
  | none => none
  | some s3 =>
    let body := s3.takeWhile (fun c => c != ')')
    if body.length = 0 then none
    else
      match List.drop body.length s3 with
      | ')' :: _ => some (4 + qn + 10 + body.length + 1, [])
      | _ => none

/-- Matcher for `url\([\'"]?data:image[^)]+\)` (first cleaning step). -/
def matchDataImageUrl (s : List Char) : Option (Nat × List Char) :=
  match lit ("url(".toList) s with
  | none => none
  | some s1 => matchDataImageTail (optQuoteLen s1) s1

/-- Matcher for `[A-Za-z0-9+/]{1000,}` (second cleaning step): a maximal
run of base64 characters of length at least 1000. -/
def matchB64Run (s : List Char) : Option (Nat × List Char) :=
  let run := s.takeWhile isBase64Char
  if 1000 ≤ run.length then some (run.length, []) else none

/-- Matcher for `<style[^>]*>(?!.*</style>)` (third cleaning step).  The
negative lookahead scans the rest of the current line only, because `.`
does not match a newline. -/
def matchStyleOpen (s : List Char) : Option (Nat × List Char) :=
  match lit ("<style".toList) s with
  | none => none
  | some s1 =>
    let attrs := s1.takeWhile (fun c => c != '>')
    match List.drop attrs.length s1 with
    | '>' :: rest =>
      let line := rest.takeWhile (fun c => c != '\n')
      if containsSub ("</style>".toList) line then none
      else some (6 + attrs.length + 1, "<style>".toList)
    | _ => none

/-- Continuation of the `url\([^)]{1000,}\)` matcher after the literal
`url(`: a run of at least 1000 non-`)` characters, then the closing
parenthesis. -/
def matchLongUrlTail (s1 : List Char) : Option (Nat × List Char) :=
  let body := s1.takeWhile (fun c => c != ')')
  if body.length < 1000 then none
  else
    match List.drop body.length s1 with
    | ')' :: _ => some (4 + body.length + 1, [])
    | _ => none

/-- Matcher for `url\([^)]{1000,}\)` (part of the fourth cleaning step). -/
def matchLongUrl (s : List Char) : Option (Nat × List Char) :=
  match lit ("url(".toList) s with
  | none => none
  | some s1 => matchLongUrlTail s1

/-- Matcher for `<prop>\s*url\([^)]{1000,}\)` where `<prop>` is
`background-image:` or `content:` (fourth cleaning step). -/
def matchPropLongUrl (pre s : List Char) : Option (Nat × List Char) :=
  match lit pre s with
  | none => none
  | some s1 =>
    let ws := s1.takeWhile isPySpace
    match matchLongUrl (List.drop ws.length s1) with
    | none => none
    | some (n, _) => some (pre.length + ws.length + n, [])

/-- Matcher for `([^\\])q([^q]*?)(?<!\\)q` with `q` the quote character
(fifth cleaning step); the replacement `\1q\2q` is rebuilt from the
groups exactly as the Python replacement template does. -/
def matchQuotePair (q : Char) (s : List Char) : Option (Nat × List Char) :=
  match s with
  | c :: d :: rest =>
    if c = '\\' then none
    else if d ≠ q then none
    else
      let g2 := rest.takeWhile (fun x => x != q)
      match List.drop g2.length rest with
      | e :: _ =>
        if e = q then
          if g2.getLastD q = '\\' then none
          else some (2 + g2.length + 1, c :: q :: (g2 ++ [q]))
        else none
      | [] => none
  | _ => none

/-- First cleaning step: remove broken `url(data:image...)` references. -/
def strip_data_image_urls (s : List Char) : List Char :=
  subst matchDataImageUrl s

/-- Second cleaning step: remove runs of at least 1000 base64 characters. -/
def strip_long_b64 (s : List Char) : List Char :=
  subst matchB64Run s

/-- Third cleaning step: normalize `<style ...>` tags with no `</style>`
later on the same line to `<style>`. -/
def fix_style_tags (s : List Char) : List Char :=
  subst matchStyleOpen s

/-- Fourth cleaning step: remove the three `url(...)` constructs with an
oversized argument, in the order the source lists the patterns. -/
def strip_long_url_props (s : List Char) : List Char :=
  subst matchLongUrl
    (subst (matchPropLongUrl ("content:".toList))
      (subst (matchPropLongUrl ("background-image:".toList)) s))

/-- Fifth cleaning step: the two quote-normalization substitutions, double
quotes first. -/
def fix_quotes (s : List Char) : List Char :=
  subst (matchQuotePair '\x27') (subst (matchQuotePair '"') s)

/-- Body of the `try` block of `clean_generated_html`: the five cleaning
steps in source order.  Each step is a total substitution, so it is
wrapped in `pure`; the `Except` layer mirrors the Python exception
channel caught by the surrounding handler. -/
def clean_steps (html : List Char) : Except (List Char) (List Char) := do
  let h1 ← pure (strip_data_image_urls html)
  let h2 ← pure (strip_long_b64 h1)
  let h3 ← pure (fix_style_tags h2)
  let h4 ← pure (strip_long_url_props h3)
  pure (fix_quotes h4)

/-- Model of `clean_generated_html`: run the cleaning steps and fall back
to the unmodified input if they raise. -/
def clean_generated_html (html : List Char) : List Char :=
  match clean_steps html with
  | Except.ok h => h
  | Except.error _ => html

/-- The fence literal of the markdown code-block pattern. -/
def fenceL : List Char := "```".toList

/-- One backtracking branch of the code-block pattern, at offset `j0`
past the opening fence (3 when the optional `html` tag is absent, 7 when
it is consumed): `\s*` is greedy, the group `([\s\S]+?)` is lazy, and the
closing fence is a literal.  The only viable backtracking alternative is
shortening `\s*` by one when the first fence sits at the very end of the
whitespace run. -/
def fenceBranch (s0 : List Char) (j0 : Nat) : Option (List Char) :=
  let w := ((List.drop j0 s0).takeWhile isPySpace).length
  let q := j0 + w
  match findSub fenceL (List.drop (q + 1) s0) with
  | some d => some (List.take (1 + d) (List.drop q s0))
  | none =>
    if 1 ≤ w ∧ fenceL.isPrefixOf (List.drop q s0) then
      some (List.take 1 (List.drop (q - 1) s0))
    else none

/-- Both branches of `(?:html)?` at a position where the opening fence
matched, preferring the branch that consumes the tag. -/
def tryFence (s0 : List Char) : Option (List Char) :=
  if ("html".toList).isPrefixOf (List.drop 3 s0) then
    match fenceBranch s0 7 with
    | some g => some g
    | none => fenceBranch s0 3
  else fenceBranch s0 3

/-- Leftmost match of the code-block pattern
`` ```(?:html)?\s*([\s\S]+?)``` ``, returning the group. -/
def searchCodeBlock : List Char → Option (List Char)
  | [] => none
  | c :: cs =>
    if fenceL.isPrefixOf (c :: cs) then
      match tryFence (c :: cs) with
      | some g => some g
      | none => searchCodeBlock cs
    else searchCodeBlock cs

/-- Leftmost match of `(<html[\s\S]+?</html>)` under `re.IGNORECASE`,
returning the matched span. -/
def searchHtmlBlock : List Char → Option (List Char)
  | [] => none
  | c :: cs =>
    if ciAt ("<html".toList) (c :: cs) then
      match ciFindSub ("</html>".toList) (List.drop 6 (c :: cs)) with
      | some d => some (List.take (13 + d) (c :: cs))
      | none => searchHtmlBlock cs
    else searchHtmlBlock cs

/-- Model of `extract_html_from_ai_response`: prefer a fenced code block,
then the first `<html>...</html>` span, then the whole text; strip the
result. -/
def extract_html_from_ai_response (text : List Char) : List Char :=
  match searchCodeBlock text with
  | some html => pyStrip html
  | none =>
    match searchHtmlBlock text with
    | some html => pyStrip html
    | none => pyStrip text

/-- Result of `urllib.parse.urlparse` as consumed by `is_valid_url`:
only the scheme and hostname are inspected. -/
structure ParsedUrl where
  scheme : String
  hostname : Option String

/-- The private and link-local hostname blacklist of the validator. -/
def PRIVATE_IP_PREFIXES : List String :=
  ["10.", "172.16.", "172.17.", "172.18.", "172.19.", "172.20.", "172.21.",
   "172.22.", "172.23.", "172.24.", "172.25.", "172.26.", "172.27.",
   "172.28.", "172.29.", "172.30.", "172.31.", "192.168.", "127.", "169.254."]

/-- Model of `str.startswith`. -/
def pyStartsWith (s p : String) : Bool :=
  p.toList.isPrefixOf s.toList

/-- Model of `is_valid_url`.  Python's `not parsed.hostname` is true both
for a missing hostname and for an empty one. -/
def is_valid_url (u : ParsedUrl) : Bool :=
  if u.scheme ≠ "http" ∧ u.scheme ≠ "https" then false
  else
    match u.hostname with
    | none => false
    | some h =>
      if h = "" then false
      else if h = "localhost" ∨ PRIVATE_IP_PREFIXES.any (fun p => pyStartsWith h p) then false
      else true

/-- Model of `truncate_css` at its default maximum length. -/
def truncate_css (css : List Char) : List Char :=
  if 10000 < css.length then List.take 10000 css else css

/-- Model of `truncate_content` at its default maximum length. -/
def truncate_content (content : List Char) : List Char :=
  if 10000 < content.length then List.take 10000 content else content

/-- The scraped page: the `content` and `styles` fields of the dict
returned by `scrape_website`. -/
structure ScrapedPage where
  content : List Char
  styles : List Char

/-- Leading text of the generation prompt, up to the interpolated
content. -/
def promptHead : List Char :=
  ("\n        Create a similar-looking website based on this content and styling:\n        Content: ").toList

/-- Prompt text between the interpolated content and styles. -/
def promptMid : List Char :=
  ("\n        Styles: ").toList

/-- Trailing text of the generation prompt: the fixed guideline list. -/
def promptTail : List Char :=
  ("\n        \n        Generate only the HTML code that recreates this website\x27s look and feel.\n        Follow these specific guidelines:\n        1. Keep the same color scheme, layout, and overall design\n        2. PRESERVE ALL ORIGINAL IMAGE URLs - do not replace them with placeholders\n        3. Use standard web-safe fonts if the original font is not available\n        4. Keep CSS simple and avoid complex transformations\n        5. Use semantic HTML elements where possible\n        6. Ensure all styles are properly closed and valid\n        7. Keep the HTML structure clean and well-formatted\n        8. Avoid inline styles where possible - use a style tag instead\n        9. Make sure all CSS properties are valid and properly formatted\n        10. Maintain all original image dimensions (width/height attributes)\n        11. Do NOT use placeholder comments or generic content such as <!-- Original navigation items --> or <!-- Original slider/hero content -->. If you cannot reconstruct a section, OMIT IT entirely rather than using a placeholder.\n        \n        Return only the HTML code with embedded CSS.\n        ").toList

/-- The prompt assembled by `generate_clone` from the (possibly
truncated) content and styles. -/
def build_prompt (html_content css : List Char) : List Char :=
  promptHead ++ html_content ++ promptMid ++ css ++ promptTail

/-- Quota and token-limit detection on the provider error message:
case-insensitive `quota` or `token`, or a literal `429`. -/
def isQuotaOrTokenError (msg : List Char) : Bool :=
  containsSub ("quota".toList) (lowerL msg) ||
  containsSub ("token".toList) (lowerL msg) ||
  containsSub ("429".toList) msg

/-- Prefix of the detail message of the `HTTPException` raised when
generation fails. -/
def genErrorPrefix : List Char :=
  ("Error generating clone: ").toList

/-- Model of `generate_clone`.  The provider is the oracle `oracle`,
giving the outcome of the generation call with a given index and prompt;
`i` is the index of the next call, and the returned number is the index
after the last call made, so that call counts are observable.  On a
quota, token or 429 failure with at least one truncation flag still
false, the source recurses once with both flags true; any other failure
is surfaced with the upstream message. -/
def generate_clone (oracle : Nat → List Char → Except (List Char) (List Char))
    (i : Nat) (content : ScrapedPage)
    (truncate_css_flag truncate_content_flag : Bool) :
    Except (List Char) (List Char) × Nat :=
  let css := if truncate_css_flag then truncate_css content.styles else content.styles
  let html_content :=
    if truncate_content_flag then truncate_content content.content else content.content
  match oracle i (build_prompt html_content css) with
  | Except.ok response =>
    (Except.ok (clean_generated_html (extract_html_from_ai_response response)), i + 1)
  | Except.error msg =>
    if h : (!truncate_css_flag || !truncate_content_flag) && isQuotaOrTokenError msg then
      generate_clone oracle (i + 1) content true true
    else
      (Except.error (genErrorPrefix ++ msg), i + 1)
termination_by
  (bif truncate_css_flag then 0 else 1) + (bif truncate_content_flag then 0 else 1)
decreasing_by
  simp only [Bool.and_eq_true, Bool.or_eq_true, Bool.not_eq_eq_eq_not, Bool.not_true] at h
  rcases h with ⟨h1 | h1, -⟩ <;> simp [h1]

/-- File extensions used by the clone store: `{id}.html` for bodies and
`{id}.json` for metadata sidecars. -/
inductive FileExt where
  | html
  | json
deriving DecidableEq

/-- The metadata record written by `save_clone`. -/
structure CloneRecord where
  id : String
  url : String
  timestamp : String
  filename : String × FileExt
deriving DecidableEq

/-- Content of a stored file: an HTML body, or the JSON rendering of a
metadata record (serialisation by the `json` module is abstracted). -/
inductive FileContent where
  | text (s : List Char)
  | meta (r : CloneRecord)
deriving DecidableEq

/-- The clones directory: an association list from filenames to
contents, newest first. -/
abbrev FS := List ((String × FileExt) × FileContent)

/-- Lookup of a file by name, the model of opening a path inside
`CLONES_DIR`. -/
def lookupFile : FS → String × FileExt → Option FileContent
  | [], _ => none
  | (n, c) :: fs, m => if m = n then some c else lookupFile fs m

/-- Model of `save_clone`: write the HTML body under `{id}.html`, then
the metadata record under `{id}.json`, and return the record.  The fresh
UUID and the timestamp are parameters. -/
def save_clone (fs : FS) (url : String) (html : List Char)
    (clone_id : String) (ts : String) : CloneRecord × FS :=
  let filename : String × FileExt := (clone_id, FileExt.html)
  let record : CloneRecord := ⟨clone_id, url, ts, filename⟩
  (record,
    ((clone_id, FileExt.json), FileContent.meta record) ::
      (filename, FileContent.text html) :: fs)

/-- Model of `get_history`: collect the records of all `*.json` files
(files whose content is not a record fail `json.load` and are skipped),
then sort by timestamp, newest first.  Python's stable `sort` with
`reverse=True` is `mergeSort` with the reversed comparison. -/
def get_history (fs : FS) : List CloneRecord :=
  let metas := (fs.filter (fun f => f.1.2 == FileExt.json)).filterMap
    (fun f =>
      match f.2 with
      | FileContent.meta r => some r
      | FileContent.text _ => none)
  metas.mergeSort (fun a b => decide (b.timestamp ≤ a.timestamp))

/-- Model of `preview_clone`: look the file up, a missing file is a 404. -/
def preview_clone (fs : FS) (filename : String × FileExt) :
    Except Nat FileContent :=
  match lookupFile fs filename with
  | none => Except.error 404
  | some c => Except.ok c

/-- UTF-8 byte length of a string, the model of
`len(s.encode('utf-8'))`. -/
def utf8Len (s : List Char) : Nat :=
  (s.map Char.utf8Size).sum

/-- Model of the `/clone` endpoint `clone_website`: validate, scrape
(outcome abstracted as a parameter, see `scrape_website`), generate,
enforce the 1,000,000-byte size gate, and only then save.  Errors are
`(status, detail)` pairs; the resulting store is returned alongside. -/
def clone_website (fs : FS) (u : ParsedUrl) (rawUrl : String)
    (scrape : Except (List Char) ScrapedPage)
    (oracle : Nat → List Char → Except (List Char) (List Char))
    (clone_id ts : String) :
    Except (Nat × List Char) (List Char × CloneRecord) × FS :=
  if is_valid_url u = false then
    (Except.error (400, ("Invalid or unsafe URL").toList), fs)
  else
    match scrape with
    | Except.error msg => (Except.error (502, msg), fs)
    | Except.ok content =>
      match (generate_clone oracle 0 content false false).1 with
      | Except.error e => (Except.error (500, e), fs)
      | Except.ok clone =>
        if 1000000 < utf8Len clone then
          (Except.error (413, ("Generated HTML is too large.").toList), fs)
        else
          let r := save_clone fs rawUrl clone clone_id ts
          (Except.ok (clone, r.1), r.2)

/-! Basic lemmas about the substitution combinator. -/

theorem subst_nil (m : List Char → Option (Nat × List Char)) : subst m [] = [] := rfl

theorem substFuel_congr (m : List Char → Option (Nat × List Char)) :
    ∀ (f1 f2 : Nat) (s : List Char), s.length ≤ f1 → s.length ≤ f2 →
      substFuel m f1 s = substFuel m f2 s := by
  intro f1
  induction f1 with
  | zero =>
    intro f2 s hs1 hs2
    have : s = [] := List.length_eq_zero.mp (Nat.le_zero.mp hs1)
    subst this
    cases f2 <;> rfl
  | succ f ih =>
    intro f2 s hs1 hs2
    match s with
    | [] => cases f2 <;> rfl
    | c :: cs =>
      match f2 with
      | 0 => simp at hs2
      | g + 1 =>
        simp only [substFuel]
        simp only [List.length_cons, Nat.add_le_add_iff_right] at hs1 hs2
        cases hmc : m (c :: cs) with
        | none =>
          show c :: substFuel m f cs = c :: substFuel m g cs
          rw [ih g cs hs1 hs2]
        | some nr =>
          obtain ⟨n, r⟩ := nr
          show r ++ substFuel m f (List.drop (n - 1) cs) =
            r ++ substFuel m g (List.drop (n - 1) cs)
          rw [ih g (List.drop (n - 1) cs)
            (le_trans (by simp) hs1) (le_trans (by simp) hs2)]

theorem subst_cons_some (m : List Char → Option (Nat × List Char)) (c : Char)
    (cs : List Char) (n : Nat) (r : List Char) (h : m (c :: cs) = some (n, r)) :
    subst m (c :: cs) = r ++ subst m (List.drop (n - 1) cs) := by
  show substFuel m (cs.length + 1) (c :: cs) = _
  simp only [substFuel, h]
  rw [substFuel_congr m cs.length (List.drop (n - 1) cs).length
    (List.drop (n - 1) cs) (by simp) le_rfl]
  rfl

theorem subst_cons_none (m : List Char → Option (Nat × List Char)) (c : Char)
    (cs : List Char) (h : m (c :: cs) = none) :
    subst m (c :: cs) = c :: subst m cs := by
  show substFuel m (cs.length + 1) (c :: cs) = _
  simp only [substFuel, h]
  rfl

theorem subst_append_none (m : List Char → Option (Nat × List Char))
    (chunk rest : List Char) (h : ∀ c ∈ chunk, ∀ u, m (c :: u) = none) :
    subst m (chunk ++ rest) = chunk ++ subst m rest := by
  induction chunk with
  | nil => simp
  | cons c cs ih =>
    rw [List.cons_append, subst_cons_none m c (cs ++ rest) (h c (by simp) _),
      ih (fun d hd u => h d (by simp [hd]) u)]
    simp

theorem subst_eq_self_of_none (m : List Char → Option (Nat × List Char))
    (s : List Char) (h : ∀ c ∈ s, ∀ u, m (c :: u) = none) :
    subst m s = s := by
  have := subst_append_none m s [] h
  simpa [subst_nil] using this

theorem subst_eq_self_aux (m : List Char → Option (Nat × List Char))
    (hm : ∀ s n r, m s = some (n, r) → 1 ≤ n ∧ r = List.take n s) :
    ∀ (k : Nat) (s : List Char), s.length ≤ k → subst m s = s := by
  intro k
  induction k with
  | zero =>
    intro s hs
    have : s = [] := List.length_eq_zero.mp (Nat.le_zero.mp hs)
    simp [this, subst_nil]
  | succ k ih =>
    intro s hs
    match s with
    | [] => simp [subst_nil]
    | c :: cs =>
      cases hmc : m (c :: cs) with
      | none =>
        rw [subst_cons_none m c cs hmc,
          ih cs (by simpa using Nat.lt_succ_iff.mp (Nat.lt_of_lt_of_le (by simp) hs))]
      | some nr =>
        obtain ⟨n, r⟩ := nr
        obtain ⟨hn, hr⟩ := hm _ _ _ hmc
        have hdrop : List.drop (n - 1) cs = List.drop n (c :: cs) := by
          cases n with
          | zero => omega
          | succ k2 => simp [List.drop_succ_cons]
        rw [subst_cons_some m c cs n r hmc, hr, hdrop,
          ih (List.drop n (c :: cs)) (by simp at hs ⊢; omega)]
        exact List.take_append_drop n (c :: cs)

theorem subst_eq_self_of_matchSelf (m : List Char → Option (Nat × List Char))
    (hm : ∀ s n r, m s = some (n, r) → 1 ≤ n ∧ r = List.take n s)
    (s : List Char) : subst m s = s :=
  subst_eq_self_aux m hm s.length s le_rfl

theorem lit_head_ne (a c : Char) (p u : List Char) (h : a ≠ c) :
    lit (a :: p) (c :: u) = none := by
  simp [lit, List.isPrefixOf_cons₂, h]

theorem matchQuotePair_matchSelf (q : Char) (s : List Char) (n : Nat) (r : List Char)
    (h : matchQuotePair q s = some (n, r)) : 1 ≤ n ∧ r = List.take n s := by
  match s with
  | [] => simp [matchQuotePair] at h
  | [c] => simp [matchQuotePair] at h
  | c :: d :: rest =>
    by_cases hc : c = '\\'
    · simp [matchQuotePair, hc] at h
    by_cases hd : d = q
    case neg => simp [matchQuotePair, hc, hd] at h
    cases hdrop : List.drop (rest.takeWhile (fun x => x != q)).length rest with
    | nil => simp [matchQuotePair, hc, hd, hdrop] at h
    | cons e es =>
      by_cases he : e = q
      case neg => simp [matchQuotePair, hc, hd, hdrop, he] at h
      simp [matchQuotePair, hc, hd, hdrop, he] at h
      obtain ⟨-, hn, hr⟩ := h
      have htk : List.take (rest.takeWhile (fun x => x != q)).length rest =
          rest.takeWhile (fun x => x != q) :=
        (List.prefix_iff_eq_take.mp (List.takeWhile_prefix _)).symm
      have h1 : List.take ((rest.takeWhile (fun x => x != q)).length + 1) rest =
          rest.takeWhile (fun x => x != q) ++ [q] := by
        rw [List.take_add, htk, hdrop]
        simp [he]
      refine ⟨by omega, ?_⟩
      rw [← hr, ← hn, hd]
      have hn' : 2 + (rest.takeWhile (fun x => x != q)).length + 1 =
          (rest.takeWhile (fun x => x != q)).length + 1 + 1 + 1 := by omega
      rw [hn']
      simp only [List.take_succ_cons]
      rw [h1]

theorem quoteSub_eq_self (q : Char) (s : List Char) :
    subst (matchQuotePair q) s = s :=
  subst_eq_self_of_matchSelf _ (matchQuotePair_matchSelf q) s

theorem fix_quotes_eq_self (s : List Char) : fix_quotes s = s := by
  rw [fix_quotes, quoteSub_eq_self, quoteSub_eq_self]

theorem matchDataImageUrl_head_ne (c : Char) (u : List Char) (h : c ≠ 'u') :
    matchDataImageUrl (c :: u) = none := by
  simp only [matchDataImageUrl]
  rw [show ("url(".toList) = 'u' :: "rl(".toList from rfl,
    lit_head_ne 'u' c _ u (Ne.symm h)]

theorem matchB64Run_head_not (c : Char) (u : List Char) (h : isBase64Char c = false) :
    matchB64Run (c :: u) = none := by
  simp [matchB64Run, List.takeWhile_cons, h]

theorem matchStyleOpen_head_ne (c : Char) (u : List Char) (h : c ≠ '<') :
    matchStyleOpen (c :: u) = none := by
  simp only [matchStyleOpen]
  rw [show ("<style".toList) = '<' :: "style".toList from rfl,
    lit_head_ne '<' c _ u (Ne.symm h)]

theorem matchLongUrl_head_ne (c : Char) (u : List Char) (h : c ≠ 'u') :
    matchLongUrl (c :: u) = none := by
  simp only [matchLongUrl]
  rw [show ("url(".toList) = 'u' :: "rl(".toList from rfl,
    lit_head_ne 'u' c _ u (Ne.symm h)]

theorem matchPropLongUrl_head_ne (p0 c : Char) (pre u : List Char) (h : p0 ≠ c) :
    matchPropLongUrl (p0 :: pre) (c :: u) = none := by
  simp only [matchPropLongUrl]
  rw [lit_head_ne p0 c pre u h]

theorem subst_replicate_none (m : List Char → Option (Nat × List Char))
    (c : Char) (k : Nat) (t : List Char) (h : ∀ u, m (c :: u) = none) :
    subst m (List.replicate k c ++ t) = List.replicate k c ++ subst m t :=
  subst_append_none m _ t (fun d hd u => by rw [List.eq_of_mem_replicate hd]; exact h u)

/-- C10: the final quote-normalization pass of `clean_generated_html` is
the identity: each of its two regex substitutions replaces every match
with exactly the matched text, so for every input the double-quote
substitution, the single-quote substitution, and the whole pass return
the input unchanged. -/
theorem c10_quote_normalization_identity (s : List Char) :
    subst (matchQuotePair '"') s = s ∧
    subst (matchQuotePair '\x27') s = s ∧
    fix_quotes s = s :=
  ⟨quoteSub_eq_self '"' s, quoteSub_eq_self '\x27' s, fix_quotes_eq_self s⟩

/-- C4: `clean_generated_html` always terminates normally and returns a
string: every cleaning step of the `try` body is a total substitution, so
`clean_steps` never signals an error on the modelled exception channel,
the handler that would return the input unchanged is never taken, and the
function returns exactly the steps' result. -/
theorem c4_clean_html_never_raises (html : List Char) :
    clean_steps html = Except.ok (clean_generated_html html) := rfl

/-- C2: the URL validator rejects every URL whose scheme is not http or
https, whose hostname is absent, or whose hostname is `localhost` or
starts with one of the private or link-local prefixes; it accepts the
public URL `https://example.com`. -/
theorem c2_url_validation (u : ParsedUrl) (s h : String) :
    ((u.scheme ≠ "http" ∧ u.scheme ≠ "https") → is_valid_url u = false) ∧
    (is_valid_url ⟨s, none⟩ = false) ∧
    (is_valid_url ⟨s, some "localhost"⟩ = false) ∧
    (∀ p ∈ PRIVATE_IP_PREFIXES, pyStartsWith h p → is_valid_url ⟨s, some h⟩ = false) ∧
    (is_valid_url ⟨"https", some "example.com"⟩ = true) := by
  refine ⟨?_, ?_, ?_, ?_, by decide⟩
  · intro hs
    simp [is_valid_url, hs]
  · by_cases hs : s ≠ "http" ∧ s ≠ "https" <;> simp [is_valid_url, hs]
  · by_cases hs : s ≠ "http" ∧ s ≠ "https" <;> simp [is_valid_url, hs]
  · intro p hp hsw
    by_cases hs : s ≠ "http" ∧ s ≠ "https"
    · simp [is_valid_url, hs]
    · by_cases hh : h = ""
      · simp [is_valid_url, hs, hh]
      · have hany : PRIVATE_IP_PREFIXES.any (fun p => pyStartsWith h p) = true :=
          List.any_eq_true.mpr ⟨p, hp, hsw⟩
        simp [is_valid_url, hs, hh, hany]

/-- Witness for C2 at concrete inputs: a bad scheme, a missing hostname,
localhost, a link-local address, and the accepted public URL. -/
theorem c2_url_validation_witness :
    is_valid_url ⟨"ftp", some "example.com"⟩ = false ∧
    is_valid_url ⟨"https", (none : Option String)⟩ = false ∧
    is_valid_url ⟨"https", some "localhost"⟩ = false ∧
    is_valid_url ⟨"https", some "169.254.169.254"⟩ = false ∧
    is_valid_url ⟨"https", some "example.com"⟩ = true :=
  ⟨(c2_url_validation ⟨"ftp", some "example.com"⟩ "x" "x").1 (by decide),
   (c2_url_validation ⟨"x", none⟩ "https" "x").2.1,
   (c2_url_validation ⟨"x", none⟩ "https" "x").2.2.1,
   (c2_url_validation ⟨"x", none⟩ "https" "169.254.169.254").2.2.2.1
     "169.254." (by decide) (by decide),
   (c2_url_validation ⟨"x", none⟩ "x" "x").2.2.2.2⟩

theorem generate_clone_snd_true_true
    (oracle : Nat → List Char → Except (List Char) (List Char))
    (j : Nat) (page : ScrapedPage) :
    (generate_clone oracle j page true true).2 = j + 1 := by
  rw [generate_clone]
  split
  · rfl
  · rw [dif_neg (by simp)]

theorem generate_clone_unfold
    (oracle : Nat → List Char → Except (List Char) (List Char))
    (i : Nat) (page : ScrapedPage) (tc tcc : Bool) :
    generate_clone oracle i page tc tcc =
      match oracle i (build_prompt
          (if tcc then truncate_content page.content else page.content)
          (if tc then truncate_css page.styles else page.styles)) with
      | Except.ok response =>
        (Except.ok (clean_generated_html (extract_html_from_ai_response response)), i + 1)
      | Except.error msg =>
        if (!tc || !tcc) && isQuotaOrTokenError msg then
          generate_clone oracle (i + 1) page true true
        else (Except.error (genErrorPrefix ++ msg), i + 1) := by
  rw [generate_clone]
  simp only [dite_eq_ite]

/-- C1: degrade policy of `generate_clone`.  When a generation call fails
with a message containing quota, token (case-insensitively) or 429 and at
least one truncation flag is false, the orchestrator makes exactly one
further call with both flags true and no third call (the call index
advances by exactly two); any other failure, or a failure with both flags
already true, surfaces the error with the upstream message. -/
theorem c1_generation_degrade_policy
    (oracle : Nat → List Char → Except (List Char) (List Char))
    (i : Nat) (page : ScrapedPage) (tc tcc : Bool) (msg : List Char)
    (hfail : oracle i (build_prompt
        (if tcc then truncate_content page.content else page.content)
        (if tc then truncate_css page.styles else page.styles)) = Except.error msg) :
    ((tc = false ∨ tcc = false) → isQuotaOrTokenError msg = true →
      generate_clone oracle i page tc tcc = generate_clone oracle (i + 1) page true true ∧
      (generate_clone oracle (i + 1) page true true).2 = i + 2) ∧
    (isQuotaOrTokenError msg = false →
      generate_clone oracle i page tc tcc = (Except.error (genErrorPrefix ++ msg), i + 1)) ∧
    (tc = true → tcc = true →
      generate_clone oracle i page tc tcc = (Except.error (genErrorPrefix ++ msg), i + 1)) := by
  refine ⟨?_, ?_, ?_⟩
  · intro hflag hquota
    have hcond : ((!tc || !tcc) && isQuotaOrTokenError msg) = true := by
      rcases hflag with h | h <;> simp [h, hquota]
    refine ⟨?_, ?_⟩
    · rw [generate_clone_unfold, hfail]
      simp [hcond]
    · rw [generate_clone_snd_true_true]
  · intro hquota
    rw [generate_clone_unfold, hfail]
    simp [hquota]
  · intro htc htcc
    subst htc
    subst htcc
    rw [generate_clone_unfold, hfail]
    simp

/-- Witness for C1: a first call failing with a 429 message while both
flags are false leads to exactly one degraded second call and none after
it. -/
theorem c1_generation_degrade_policy_witness :
    (generate_clone
        (fun j _ => if j = 0 then Except.error ("429".toList) else Except.error ("boom".toList))
        0 ⟨[], []⟩ false false =
      generate_clone
        (fun j _ => if j = 0 then Except.error ("429".toList) else Except.error ("boom".toList))
        1 ⟨[], []⟩ true true) ∧
    (generate_clone
        (fun j _ => if j = 0 then Except.error ("429".toList) else Except.error ("boom".toList))
        1 ⟨[], []⟩ true true).2 = 2 :=
  (c1_generation_degrade_policy
    (fun j _ => if j = 0 then Except.error ("429".toList) else Except.error ("boom".toList))
    0 ⟨[], []⟩ false false ("429".toList) rfl).1 (Or.inl rfl) (by decide)

/-- C5: saving a clone and then reading the record's filename yields the
original HTML unchanged, for every store state, URL, body, identifier and
timestamp. -/
theorem c5_save_read_roundtrip (fs : FS) (url : String) (html : List Char)
    (clone_id ts : String) :
    preview_clone (save_clone fs url html clone_id ts).2
      (save_clone fs url html clone_id ts).1.filename =
      Except.ok (FileContent.text html) := by
  simp [save_clone, preview_clone, lookupFile]

theorem timestampLe_trans (a b c : CloneRecord)
    (hab : decide (b.timestamp ≤ a.timestamp) = true)
    (hbc : decide (c.timestamp ≤ b.timestamp) = true) :
    decide (c.timestamp ≤ a.timestamp) = true := by
  simp only [decide_eq_true_eq] at *
  exact le_trans hbc hab

theorem timestampLe_total (a b : CloneRecord) :
    (decide (b.timestamp ≤ a.timestamp) || decide (a.timestamp ≤ b.timestamp)) = true := by
  rcases le_total a.timestamp b.timestamp with h | h <;> simp [h]

/-- C9: after three saves with fresh identifiers into a store containing
no metadata files (orphan HTML files are allowed and remain invisible to
the listing, which enumerates only `*.json` files), the history holds
exactly the three records, ordered by descending timestamp. -/
theorem c9_history_after_three_saves (fs0 : FS)
    (hjson : ∀ f ∈ fs0, f.1.2 ≠ FileExt.json)
    (u1 u2 u3 : String) (h1 h2 h3 : List Char) (i1 i2 i3 ts1 ts2 ts3 : String)
    (hi12 : i1 ≠ i2) (hi13 : i1 ≠ i3) (hi23 : i2 ≠ i3) :
    (get_history (save_clone (save_clone (save_clone fs0 u1 h1 i1 ts1).2
        u2 h2 i2 ts2).2 u3 h3 i3 ts3).2).length = 3 ∧
    (get_history (save_clone (save_clone (save_clone fs0 u1 h1 i1 ts1).2
        u2 h2 i2 ts2).2 u3 h3 i3 ts3).2).Perm
      [(save_clone fs0 u1 h1 i1 ts1).1,
       (save_clone (save_clone fs0 u1 h1 i1 ts1).2 u2 h2 i2 ts2).1,
       (save_clone (save_clone (save_clone fs0 u1 h1 i1 ts1).2 u2 h2 i2 ts2).2
          u3 h3 i3 ts3).1] ∧
    (get_history (save_clone (save_clone (save_clone fs0 u1 h1 i1 ts1).2
        u2 h2 i2 ts2).2 u3 h3 i3 ts3).2).Pairwise
      (fun a b => b.timestamp ≤ a.timestamp) := by
  have hnil : fs0.filter (fun f => f.1.2 == FileExt.json) = [] :=
    List.filter_eq_nil_iff.mpr (fun f hf => by simp [hjson f hf])
  have hmetas : get_history (save_clone (save_clone (save_clone fs0 u1 h1 i1 ts1).2
      u2 h2 i2 ts2).2 u3 h3 i3 ts3).2 =
      List.mergeSort
        ([⟨i3, u3, ts3, (i3, FileExt.html)⟩, ⟨i2, u2, ts2, (i2, FileExt.html)⟩,
          ⟨i1, u1, ts1, (i1, FileExt.html)⟩] : List CloneRecord)
        (fun a b => decide (b.timestamp ≤ a.timestamp)) := by
    simp [get_history, save_clone, List.filter_cons, hnil]
  refine ⟨?_, ?_, ?_⟩
  · rw [hmetas]
    simp
  · rw [hmetas]
    refine ((List.mergeSort_perm _ _).trans ?_)
    simp [save_clone]
    exact List.reverse_perm
      ([⟨i1, u1, ts1, (i1, FileExt.html)⟩, ⟨i2, u2, ts2, (i2, FileExt.html)⟩,
        ⟨i3, u3, ts3, (i3, FileExt.html)⟩] : List CloneRecord)
  · rw [hmetas]
    exact (List.sorted_mergeSort timestampLe_trans timestampLe_total _).imp
      (fun h => of_decide_eq_true h)

/-- Witness for C9: three saves with fresh identifiers into the empty
store. -/
theorem c9_history_after_three_saves_witness :
    (get_history (save_clone (save_clone (save_clone ([] : FS) "u" [] "a" "3").2
        "u" [] "b" "1").2 "u" [] "c" "2").2).length = 3 ∧
    (get_history (save_clone (save_clone (save_clone ([] : FS) "u" [] "a" "3").2
        "u" [] "b" "1").2 "u" [] "c" "2").2).Perm
      [(save_clone ([] : FS) "u" [] "a" "3").1,
       (save_clone (save_clone ([] : FS) "u" [] "a" "3").2 "u" [] "b" "1").1,
       (save_clone (save_clone (save_clone ([] : FS) "u" [] "a" "3").2
          "u" [] "b" "1").2 "u" [] "c" "2").1] ∧
    (get_history (save_clone (save_clone (save_clone ([] : FS) "u" [] "a" "3").2
        "u" [] "b" "1").2 "u" [] "c" "2").2).Pairwise
      (fun a b => b.timestamp ≤ a.timestamp) :=
  c9_history_after_three_saves [] (by simp) "u" "u" "u" [] [] [] "a" "b" "c"
    "3" "1" "2" (by decide) (by decide) (by decide)

theorem lit_append (p x : List Char) : lit p (p ++ x) = some x := by
  simp [lit, List.isPrefixOf_iff_prefix, List.prefix_append, List.drop_left]

theorem takeWhile_append_stop (p : Char → Bool) (l : List Char) (c : Char)
    (r : List Char) (hl : ∀ x ∈ l, p x = true) (hc : p c = false) :
    (l ++ c :: r).takeWhile p = l := by
  induction l with
  | nil => simp [List.takeWhile_cons, hc]
  | cons a as ih =>
    simp [List.takeWhile_cons, hl a (by simp),
      ih (fun x hx => hl x (by simp [hx]))]

theorem matchStyleOpen_at_tag (attrs rest : List Char)
    (hattrs : ∀ c ∈ attrs, c ≠ '>') :
    matchStyleOpen ("<style".toList ++ attrs ++ '>' :: rest) =
      if containsSub ("</style>".toList) (rest.takeWhile (fun c => c != '\n')) then
        none
      else some (6 + attrs.length + 1, "<style>".toList) := by
  unfold matchStyleOpen
  rw [show ("<style".toList ++ attrs ++ '>' :: rest) =
      ("<style".toList ++ (attrs ++ '>' :: rest)) by simp]
  simp only [lit_append]
  rw [takeWhile_append_stop _ attrs '>' rest
    (fun x hx => by simp [hattrs x hx]) (by simp)]
  rw [List.drop_left]
  rfl

theorem fix_style_tags_match (pre attrs rest : List Char)
    (hpre : ∀ c ∈ pre, c ≠ '<')
    (hattrs : ∀ c ∈ attrs, c ≠ '>' ∧ c ≠ '<')
    (hline : containsSub ("</style>".toList)
      (rest.takeWhile (fun c => c != '\n')) = false) :
    fix_style_tags (pre ++ "<style".toList ++ attrs ++ '>' :: rest) =
      pre ++ "<style>".toList ++ fix_style_tags rest := by
  unfold fix_style_tags
  rw [show pre ++ "<style".toList ++ attrs ++ '>' :: rest =
      pre ++ ("<style".toList ++ attrs ++ '>' :: rest) by simp]
  rw [subst_append_none matchStyleOpen pre _
    (fun c hc u => matchStyleOpen_head_ne c u (hpre c hc))]
  have hm : matchStyleOpen ("<style".toList ++ attrs ++ '>' :: rest) =
      some (6 + attrs.length + 1, "<style>".toList) := by
    rw [matchStyleOpen_at_tag attrs rest (fun c hc => (hattrs c hc).1), hline]
    simp
  rw [show ("<style".toList ++ attrs ++ '>' :: rest) =
      '<' :: ("style".toList ++ attrs ++ '>' :: rest) by simp]
  rw [subst_cons_some matchStyleOpen _ _ _ _ (by simpa using hm)]
  have hdrop : List.drop (6 + attrs.length + 1 - 1)
      ("style".toList ++ attrs ++ '>' :: rest) = rest := by
    rw [show ("style".toList ++ attrs ++ '>' :: rest) =
        (("style".toList ++ attrs ++ ['>']) ++ rest) by simp]
    rw [List.drop_left' (by simp; omega)]
  rw [hdrop]
  simp

theorem fix_style_tags_nomatch (pre attrs rest : List Char)
    (hpre : ∀ c ∈ pre, c ≠ '<')
    (hattrs : ∀ c ∈ attrs, c ≠ '>' ∧ c ≠ '<')
    (hline : containsSub ("</style>".toList)
      (rest.takeWhile (fun c => c != '\n')) = true) :
    fix_style_tags (pre ++ "<style".toList ++ attrs ++ '>' :: rest) =
      pre ++ "<style".toList ++ attrs ++ '>' :: fix_style_tags rest := by
  have hchunk : ∀ c ∈ ("style".toList ++ (attrs ++ ['>'])), c ≠ '<' := by
    intro c hc
    rw [List.mem_append] at hc
    rcases hc with hc | hc
    · fin_cases hc <;> decide
    · rw [List.mem_append] at hc
      rcases hc with hc | hc
      · exact (hattrs c hc).2
      · rw [List.mem_singleton] at hc
        subst hc
        decide
  unfold fix_style_tags
  rw [show pre ++ "<style".toList ++ attrs ++ '>' :: rest =
      pre ++ ("<style".toList ++ attrs ++ '>' :: rest) by simp]
  rw [subst_append_none matchStyleOpen pre _
    (fun c hc u => matchStyleOpen_head_ne c u (hpre c hc))]
  have hm : matchStyleOpen ("<style".toList ++ attrs ++ '>' :: rest) = none := by
    rw [matchStyleOpen_at_tag attrs rest (fun c hc => (hattrs c hc).1), hline]
    simp
  rw [show ("<style".toList ++ attrs ++ '>' :: rest) =
      '<' :: ("style".toList ++ attrs ++ '>' :: rest) by simp]
  rw [subst_cons_none matchStyleOpen _ _ (by simpa using hm)]
  rw [show ("style".toList ++ attrs ++ '>' :: rest) =
      (("style".toList ++ (attrs ++ ['>'])) ++ rest) by simp]
  rw [subst_append_none matchStyleOpen _ rest
    (fun c hc u => matchStyleOpen_head_ne c u (hchunk c hc))]
  simp

/-- Counterexample to C6 as stated: in `<style x>\n</style>` a matching
`</style>` appears after the opening tag (on the next line), yet
`clean_generated_html` still rewrites the opening tag to `<style>`,
because the lookahead `.*` of the pattern does not cross the newline. -/
theorem c6_style_counterexample :
    containsSub ("</style>".toList) ("\n</style>".toList) = true ∧
    clean_generated_html ("<style x>\n</style>".toList) =
      ("<style>\n</style>".toList) := by
  constructor
  · decide
  · decide

/-- C6 amended: the style-normalization pass of `clean_generated_html`
rewrites a `<style ...>` opening tag to `<style>` exactly when no
`</style>` occurs in the remainder of the same line after the tag; a
`</style>` on a later line does not prevent the rewrite.  `pre` is the
document before the tag (no `<`, so the pass matches nothing there) and
`attrs` the tag body (no `>` or `<`). -/
theorem c6_style_normalization_amended (pre attrs rest : List Char)
    (hpre : ∀ c ∈ pre, c ≠ '<')
    (hattrs : ∀ c ∈ attrs, c ≠ '>' ∧ c ≠ '<') :
    (containsSub ("</style>".toList)
        (rest.takeWhile (fun c => c != '\n')) = false →
      fix_style_tags (pre ++ "<style".toList ++ attrs ++ '>' :: rest) =
        pre ++ "<style>".toList ++ fix_style_tags rest) ∧
    (containsSub ("</style>".toList)
        (rest.takeWhile (fun c => c != '\n')) = true →
      fix_style_tags (pre ++ "<style".toList ++ attrs ++ '>' :: rest) =
        pre ++ "<style".toList ++ attrs ++ '>' :: fix_style_tags rest) :=
  ⟨fun hline => fix_style_tags_match pre attrs rest hpre hattrs hline,
   fun hline => fix_style_tags_nomatch pre attrs rest hpre hattrs hline⟩

/-- Witness for the amended C6: the tag `<style x>` with the closing tag
on the next line is rewritten. -/
theorem c6_style_normalization_amended_witness :
    fix_style_tags ("<style x>\n</style>".toList) = ("<style>\n</style>".toList) := by
  have h := (c6_style_normalization_amended [] (" x".toList) ("\n</style>".toList)
    (by decide) (by decide)).1 (by decide)
  exact h.trans (by decide)

theorem pyStrip_idem (s : List Char) : pyStrip (pyStrip s) = pyStrip s := by
  unfold pyStrip
  have hdw : List.dropWhile isPySpace
      (List.rdropWhile isPySpace (List.dropWhile isPySpace s)) =
      List.rdropWhile isPySpace (List.dropWhile isPySpace s) := by
    rw [List.dropWhile_eq_self_iff]
    intro hl
    have hpre := List.rdropWhile_prefix isPySpace (List.dropWhile isPySpace s)
    have hlen : 0 < (List.dropWhile isPySpace s).length :=
      Nat.lt_of_lt_of_le hl (List.IsPrefix.length_le hpre)
    have hget := List.dropWhile_get_zero_not isPySpace s hlen
    simp only [List.get_eq_getElem] at hget ⊢
    rw [List.IsPrefix.getElem hpre hl]
    exact hget
  rw [hdw, List.rdropWhile_idempotent]

theorem pyStrip_sublist (s : List Char) : List.Sublist (pyStrip s) s :=
  ((List.rdropWhile_prefix isPySpace (List.dropWhile isPySpace s)).sublist).trans
    ((List.dropWhile_suffix isPySpace).sublist)

theorem searchCodeBlock_none (s : List Char) (h : '`' ∉ s) :
    searchCodeBlock s = none := by
  induction s with
  | nil => rfl
  | cons c cs ih =>
    simp only [List.mem_cons, not_or] at h
    have hpf : fenceL.isPrefixOf (c :: cs) = false := by
      rw [show fenceL = '`' :: "``".toList from rfl, List.isPrefixOf_cons₂]
      simp [beq_eq_false_iff_ne.mpr h.1]
    simp [searchCodeBlock, hpf, ih h.2]

theorem findSub_append_of_ne (p0 : Char) (pt l r : List Char)
    (hl : ∀ c ∈ l, c ≠ p0) (hr : (p0 :: pt).isPrefixOf r = true) :
    findSub (p0 :: pt) (l ++ r) = some l.length := by
  induction l with
  | nil =>
    cases r with
    | nil => simp at hr
    | cons a rs => simp [findSub, hr]
  | cons a l' ih =>
    have hpf : (p0 :: pt).isPrefixOf (a :: (l' ++ r)) = false := by
      rw [List.isPrefixOf_cons₂]
      simp [beq_eq_false_iff_ne.mpr (Ne.symm (hl a (by simp)))]
    simp [findSub, hpf, ih (fun d hd => hl d (by simp [hd]))]

theorem fenceBranch_spec (s0 : List Char) (j0 w d : Nat)
    (hw : ((List.drop j0 s0).takeWhile isPySpace).length = w)
    (hfind : findSub fenceL (List.drop (j0 + w + 1) s0) = some d) :
    fenceBranch s0 j0 = some (List.take (1 + d) (List.drop (j0 + w) s0)) := by
  simp only [fenceBranch]
  rw [hw, hfind]

theorem fenceBranch_at (c : Char) (t : List Char) (hc : isPySpace c = false)
    (hq : '`' ∉ (c :: t)) :
    fenceBranch ("```html\n".toList ++ (c :: t) ++ "```".toList) 7 = some (c :: t) := by
  have hw : ((List.drop 7 ("```html\n".toList ++ (c :: t) ++
      "```".toList)).takeWhile isPySpace).length = 1 := by
    rw [show List.drop 7 ("```html\n".toList ++ (c :: t) ++ "```".toList) =
        '\n' :: (c :: (t ++ "```".toList)) from rfl]
    rw [List.takeWhile_cons, show isPySpace '\n' = true from rfl]
    simp [List.takeWhile_cons, hc]
  have hfind : findSub fenceL
      (List.drop (7 + 1 + 1) ("```html\n".toList ++ (c :: t) ++ "```".toList)) =
      some t.length := by
    rw [show List.drop (7 + 1 + 1) ("```html\n".toList ++ (c :: t) ++ "```".toList) =
        t ++ "```".toList from rfl]
    rw [show fenceL = '`' :: "``".toList from rfl]
    exact findSub_append_of_ne '`' ("``".toList) t ("```".toList)
      (fun d hd hdq => hq (by simp [hdq ▸ hd])) rfl
  have htake : List.take (1 + t.length)
      (List.drop (7 + 1) ("```html\n".toList ++ (c :: t) ++ "```".toList)) = c :: t := by
    rw [show List.drop (7 + 1) ("```html\n".toList ++ (c :: t) ++ "```".toList) =
        c :: (t ++ "```".toList) from rfl]
    rw [Nat.add_comm 1 t.length, List.take_succ_cons, List.take_left]
  rw [fenceBranch_spec _ 7 1 t.length hw hfind, htake]

theorem searchCodeBlock_at (c : Char) (t : List Char) (hc : isPySpace c = false)
    (hq : '`' ∉ (c :: t)) :
    searchCodeBlock ("```html\n".toList ++ (c :: t) ++ "```".toList) = some (c :: t) := by
  rw [show ("```html\n".toList ++ (c :: t) ++ "```".toList) =
      '`' :: ('`' :: '`' :: 'h' :: 't' :: 'm' :: 'l' :: '\n' ::
        ((c :: t) ++ "```".toList)) from rfl]
  rw [searchCodeBlock]
  rw [show fenceL.isPrefixOf ('`' :: ('`' :: '`' :: 'h' :: 't' :: 'm' :: 'l' :: '\n' ::
      ((c :: t) ++ "```".toList))) = true from rfl]
  simp only [if_true]
  have htf : tryFence ('`' :: ('`' :: '`' :: 'h' :: 't' :: 'm' :: 'l' :: '\n' ::
      ((c :: t) ++ "```".toList))) = some (c :: t) := by
    unfold tryFence
    rw [show ("html".toList).isPrefixOf (List.drop 3 ('`' :: ('`' :: '`' :: 'h' :: 't' ::
        'm' :: 'l' :: '\n' :: ((c :: t) ++ "```".toList)))) = true from rfl]
    simp only [if_true]
    have hfb := fenceBranch_at c t hc hq
    rw [show ("```html\n".toList ++ (c :: t) ++ "```".toList) =
        '`' :: ('`' :: '`' :: 'h' :: 't' :: 'm' :: 'l' :: '\n' ::
          ((c :: t) ++ "```".toList)) from rfl] at hfb
    rw [hfb]
  rw [htf]

/-- C8: `extract_html_from_ai_response` is idempotent on a fenced code
block containing only HTML: the body has no backtick, starts with a
non-whitespace character, and its stripped form either contains no
(case-insensitive) `<html ...</html>` span or that span is the whole
body. -/
theorem c8_extract_idempotent (c : Char) (t : List Char)
    (hc : isPySpace c = false) (hq : '`' ∉ (c :: t))
    (hhtml : searchHtmlBlock (pyStrip (c :: t)) = none ∨
      searchHtmlBlock (pyStrip (c :: t)) = some (pyStrip (c :: t))) :
    extract_html_from_ai_response (extract_html_from_ai_response
      ("```html\n".toList ++ (c :: t) ++ "```".toList)) =
    extract_html_from_ai_response ("```html\n".toList ++ (c :: t) ++ "```".toList) := by
  have hfirst : extract_html_from_ai_response
      ("```html\n".toList ++ (c :: t) ++ "```".toList) = pyStrip (c :: t) := by
    unfold extract_html_from_ai_response
    rw [searchCodeBlock_at c t hc hq]
  rw [hfirst]
  have hnone : searchCodeBlock (pyStrip (c :: t)) = none :=
    searchCodeBlock_none _ (fun hmem => hq ((pyStrip_sublist (c :: t)).subset hmem))
  rcases hhtml with hh | hh
  · simp only [extract_html_from_ai_response, hnone, hh, pyStrip_idem]
  · simp only [extract_html_from_ai_response, hnone, hh, pyStrip_idem]

/-- Witness for C8: a fenced block holding a complete HTML document. -/
theorem c8_extract_idempotent_witness :
    extract_html_from_ai_response (extract_html_from_ai_response
      ("```html\n".toList ++ ("<html><body>hi</body></html>".toList) ++ "```".toList)) =
    extract_html_from_ai_response
      ("```html\n".toList ++ ("<html><body>hi</body></html>".toList) ++ "```".toList) :=
  c8_extract_idempotent '<' ("html><body>hi</body></html>".toList)
    (by decide) (by decide) (Or.inr (by decide))

theorem searchHtmlBlock_none (s : List Char)
    (h : ∀ c ∈ s, Char.toLower c ≠ '<') : searchHtmlBlock s = none := by
  induction s with
  | nil => rfl
  | cons c cs ih =>
    have hpf : ciAt ("<html".toList) (c :: cs) = false := by
      unfold ciAt lowerL
      rw [List.map_cons]
      rw [show ("<html".toList) = '<' :: "html".toList from rfl, List.isPrefixOf_cons₂]
      simp [beq_eq_false_iff_ne.mpr (Ne.symm (h c (by simp)))]
    simp only [searchHtmlBlock, hpf, Bool.false_eq_true, if_false]
    exact ih (fun d hd => h d (by simp [hd]))

theorem dropWhile_replicate_not (p : Char → Bool) (c : Char) (n : Nat)
    (h : p c = false) :
    List.dropWhile p (List.replicate n c) = List.replicate n c := by
  cases n with
  | zero => rfl
  | succ k => simp [List.replicate_succ, List.dropWhile_cons, h]

theorem pyStrip_replicate (c : Char) (n : Nat) (h : isPySpace c = false) :
    pyStrip (List.replicate n c) = List.replicate n c := by
  unfold pyStrip List.rdropWhile
  rw [dropWhile_replicate_not isPySpace c n h, List.reverse_replicate,
    dropWhile_replicate_not isPySpace c n h, List.reverse_replicate]

theorem subst_replicate_of_head_none (m : List Char → Option (Nat × List Char))
    (c : Char) (n : Nat) (hm : ∀ u, m (c :: u) = none) :
    subst m (List.replicate n c) = List.replicate n c := by
  have h := subst_replicate_none m c n [] hm
  simpa [subst_nil] using h

theorem extract_replicate_excl (n : Nat) :
    extract_html_from_ai_response (List.replicate n '!') = List.replicate n '!' := by
  have hsc : searchCodeBlock (List.replicate n '!') = none :=
    searchCodeBlock_none _ (fun hmem => by
      have := List.eq_of_mem_replicate hmem
      simp at this)
  have hsh : searchHtmlBlock (List.replicate n '!') = none :=
    searchHtmlBlock_none _ (fun c hc => by
      rw [List.eq_of_mem_replicate hc]
      decide)
  simp only [extract_html_from_ai_response, hsc, hsh,
    pyStrip_replicate '!' n (by decide)]

theorem clean_replicate_excl (n : Nat) :
    clean_generated_html (List.replicate n '!') = List.replicate n '!' := by
  have h1 : strip_data_image_urls (List.replicate n '!') = List.replicate n '!' :=
    subst_replicate_of_head_none _ '!' n
      (fun u => matchDataImageUrl_head_ne '!' u (by decide))
  have h2 : strip_long_b64 (List.replicate n '!') = List.replicate n '!' :=
    subst_replicate_of_head_none _ '!' n
      (fun u => matchB64Run_head_not '!' u (by decide))
  have h3 : fix_style_tags (List.replicate n '!') = List.replicate n '!' :=
    subst_replicate_of_head_none _ '!' n
      (fun u => matchStyleOpen_head_ne '!' u (by decide))
  have h4 : strip_long_url_props (List.replicate n '!') = List.replicate n '!' := by
    unfold strip_long_url_props
    rw [show ("background-image:".toList) = 'b' :: "ackground-image:".toList from rfl]
    rw [subst_replicate_of_head_none _ '!' n
      (fun u => matchPropLongUrl_head_ne 'b' '!' _ u (by decide))]
    rw [show ("content:".toList) = 'c' :: "ontent:".toList from rfl]
    rw [subst_replicate_of_head_none _ '!' n
      (fun u => matchPropLongUrl_head_ne 'c' '!' _ u (by decide))]
    exact subst_replicate_of_head_none _ '!' n
      (fun u => matchLongUrl_head_ne '!' u (by decide))
  have h5 := fix_quotes_eq_self (List.replicate n '!')
  simp only [clean_generated_html, clean_steps, pure, Except.pure, bind, Except.bind,
    h1, h2, h3, h4, h5]

theorem utf8Len_replicate (n : Nat) (c : Char) :
    utf8Len (List.replicate n c) = n * c.utf8Size := by
  unfold utf8Len
  rw [List.map_replicate, List.sum_replicate, smul_eq_mul]

theorem generate_clone_big_ok :
    generate_clone (fun _ _ => Except.ok (List.replicate 1000001 '!')) 0 ⟨[], []⟩
      false false = (Except.ok (List.replicate 1000001 '!'), 1) := by
  rw [generate_clone_unfold]
  simp only [extract_replicate_excl, clean_replicate_excl]

/-- C3: when generation succeeds but the result exceeds 1,000,000 UTF-8
bytes, the pipeline returns the 413 payload-too-large error and the store
is never written: the filesystem comes back unchanged. -/
theorem c3_size_gate (fs : FS) (u : ParsedUrl) (rawUrl : String)
    (oracle : Nat → List Char → Except (List Char) (List Char))
    (clone_id ts : String) (page : ScrapedPage) (clone : List Char) (k : Nat)
    (hvalid : is_valid_url u = true)
    (hgen : generate_clone oracle 0 page false false = (Except.ok clone, k))
    (hsize : 1000000 < utf8Len clone) :
    clone_website fs u rawUrl (Except.ok page) oracle clone_id ts =
      (Except.error (413, ("Generated HTML is too large.").toList), fs) := by
  simp [clone_website, hvalid, hgen, hsize]

/-- Witness for C3: a generated clone of exactly 1,000,001 bytes is
rejected and nothing is saved to the empty store. -/
theorem c3_size_gate_witness :
    clone_website [] ⟨"https", some "example.com"⟩ "https://example.com"
      (Except.ok ⟨[], []⟩) (fun _ _ => Except.ok (List.replicate 1000001 '!'))
      "id0" "2024-01-01" =
      (Except.error (413, ("Generated HTML is too large.").toList), ([] : FS)) :=
  c3_size_gate [] ⟨"https", some "example.com"⟩ "https://example.com"
    (fun _ _ => Except.ok (List.replicate 1000001 '!')) "id0" "2024-01-01"
    ⟨[], []⟩ (List.replicate 1000001 '!') 1 (by decide) generate_clone_big_ok
    (by rw [utf8Len_replicate, show Char.utf8Size '!' = 1 from rfl, Nat.mul_one]; omega)

/-- Length of the maximal base64 run at the head of `s`. -/
def b64run (s : List Char) : Nat :=
  (s.takeWhile isBase64Char).length

theorem b64run_cons_true (c : Char) (cs : List Char) (h : isBase64Char c = true) :
    b64run (c :: cs) = b64run cs + 1 := by
  simp [b64run, List.takeWhile_cons, h]

theorem b64run_cons_false (c : Char) (cs : List Char) (h : isBase64Char c = false) :
    b64run (c :: cs) = 0 := by
  simp [b64run, List.takeWhile_cons, h]

theorem matchB64Run_none_of_short (s : List Char) (h : b64run s < 1000) :
    matchB64Run s = none := by
  unfold matchB64Run
  rw [if_neg]
  unfold b64run at h
  omega

theorem matchB64Run_some_elim (s : List Char) (n : Nat) (r : List Char)
    (h : matchB64Run s = some (n, r)) :
    r = [] ∧ n = b64run s ∧ 1000 ≤ n := by
  unfold matchB64Run at h
  by_cases hle : 1000 ≤ (s.takeWhile isBase64Char).length
  · rw [if_pos hle] at h
    have hinj := Option.some_inj.mp h
    have h1 : n = (s.takeWhile isBase64Char).length := (congrArg Prod.fst hinj).symm
    have h2 : r = ([] : List Char) := (congrArg Prod.snd hinj).symm
    refine ⟨h2, ?_, ?_⟩
    · rw [h1]
      rfl
    · rw [h1]
      exact hle
  · rw [if_neg hle] at h
    simp at h

theorem drop_takeWhile_length (p : Char → Bool) (l : List Char) :
    List.drop (l.takeWhile p).length l = l.dropWhile p := by
  induction l with
  | nil => rfl
  | cons a as ih =>
    by_cases h : p a <;>
      simp [List.takeWhile_cons, List.dropWhile_cons, h, ih]

theorem takeWhile_dropWhile_nil (p : Char → Bool) (l : List Char) :
    (l.dropWhile p).takeWhile p = [] := by
  induction l with
  | nil => rfl
  | cons a as ih =>
    by_cases h : p a <;> simp [List.dropWhile_cons, h, List.takeWhile_cons, ih]

theorem prefix_all_b64_le_run (l s : List Char) (hp : l <+: s)
    (hall : ∀ c ∈ l, isBase64Char c = true) : l.length ≤ b64run s := by
  induction l generalizing s with
  | nil => simp
  | cons a l' ih =>
    cases s with
    | nil => simp at hp
    | cons b s' =>
      obtain ⟨hab, hp'⟩ := List.cons_prefix_cons.mp hp
      subst hab
      rw [b64run_cons_true a s' (hall a (by simp))]
      have := ih s' hp' (fun c hc => hall c (by simp [hc]))
      simp only [List.length_cons]
      omega

/-- No contiguous run of at least 1000 base64-alphabet characters occurs
anywhere in `s`. -/
def noLongB64Run (s : List Char) : Prop :=
  ∀ l, List.IsInfix l s → (∀ c ∈ l, isBase64Char c = true) → l.length < 1000

theorem noLongB64Run_nil : noLongB64Run [] := by
  intro l hl _
  rw [List.infix_nil.mp hl]
  simp

theorem strip_long_b64_inv : ∀ (k : Nat) (s : List Char), s.length ≤ k →
    noLongB64Run (subst matchB64Run s) ∧
      b64run (subst matchB64Run s) ≤ b64run s := by
  intro k
  induction k with
  | zero =>
    intro s hs
    have : s = [] := List.length_eq_zero.mp (Nat.le_zero.mp hs)
    subst this
    exact ⟨by rw [subst_nil]; exact noLongB64Run_nil, by rw [subst_nil]⟩
  | succ k ih =>
    intro s hs
    match s with
    | [] => exact ⟨by rw [subst_nil]; exact noLongB64Run_nil, by rw [subst_nil]⟩
    | c :: cs =>
      cases hmc : matchB64Run (c :: cs) with
      | none =>
        have hrun : b64run (c :: cs) < 1000 := by
          by_contra hge
          rw [show matchB64Run (c :: cs) =
              some ((List.takeWhile isBase64Char (c :: cs)).length, []) from by
            unfold matchB64Run
            rw [if_pos (by unfold b64run at hge; omega)]] at hmc
          simp at hmc
        obtain ⟨ihn, ihr⟩ := ih cs (by simp at hs; omega)
        rw [subst_cons_none _ _ _ hmc]
        by_cases hb : isBase64Char c = true
        · refine ⟨?_, ?_⟩
          · intro l hl hall
            rcases List.infix_cons_iff.mp hl with hpre | hinf
            · have hle := prefix_all_b64_le_run l _ hpre hall
              rw [b64run_cons_true c _ hb] at hle
              rw [b64run_cons_true c _ hb] at hrun
              have := ihr
              omega
            · exact ihn l hinf hall
          · rw [b64run_cons_true _ _ hb, b64run_cons_true _ _ hb]
            omega
        · have hb' : isBase64Char c = false := by
            cases hx : isBase64Char c
            · rfl
            · exact absurd hx hb
          refine ⟨?_, ?_⟩
          · intro l hl hall
            rcases List.infix_cons_iff.mp hl with hpre | hinf
            · cases l with
              | nil => simp
              | cons a l' =>
                obtain ⟨hac, -⟩ := List.cons_prefix_cons.mp hpre
                subst hac
                rw [hall a (by simp)] at hb'
                simp at hb'
            · exact ihn l hinf hall
          · rw [b64run_cons_false _ _ hb']
            simp
      | some nr =>
        obtain ⟨n, r⟩ := nr
        obtain ⟨hr, hn, hge⟩ := matchB64Run_some_elim _ _ _ hmc
        have hb : isBase64Char c = true := by
          by_contra hb
          have hb' : isBase64Char c = false := by
            cases hx : isBase64Char c
            · rfl
            · exact absurd hx hb
          rw [b64run_cons_false _ _ hb'] at hn
          omega
        have hdrop : List.drop (n - 1) cs =
            List.dropWhile isBase64Char (c :: cs) := by
          have h1 : List.drop n (c :: cs) =
              List.dropWhile isBase64Char (c :: cs) := by
            rw [hn]
            exact drop_takeWhile_length isBase64Char (c :: cs)
          rw [← h1]
          cases hnn : n with
          | zero => omega
          | succ m => simp [List.drop_succ_cons]
        have hdw : List.dropWhile isBase64Char (c :: cs) =
            List.dropWhile isBase64Char cs := by
          simp [List.dropWhile_cons, hb]
        obtain ⟨ihn, ihr⟩ := ih (List.dropWhile isBase64Char cs)
          (by
            have hsuf : List.dropWhile isBase64Char cs <:+ cs :=
              List.dropWhile_suffix isBase64Char
            have := hsuf.sublist.length_le
            simp at hs
            omega)
        rw [subst_cons_some _ _ _ _ _ hmc, hr, hdrop, hdw, List.nil_append]
        refine ⟨ihn, ?_⟩
        have h0 : b64run (List.dropWhile isBase64Char cs) = 0 := by
          unfold b64run
          rw [takeWhile_dropWhile_nil]
          rfl
        omega

/-- After the base64-stripping pass no run of 1000 or more base64
characters remains, whatever the input. -/
theorem strip_long_b64_noLong (s : List Char) :
    noLongB64Run (strip_long_b64 s) :=
  (strip_long_b64_inv s.length s le_rfl).1

/-- C7 amended: after the base64-stripping pass of `clean_generated_html`
there is no run of 1000 or more base64 characters left, whatever the
input; and the final output is free of such runs whenever the
style-normalization and url()-stripping substitutions leave the document
unchanged (those passes delete text and can rejoin two shorter runs into
a long one). -/
theorem c7_b64_run_amended (s : List Char) :
    noLongB64Run (strip_long_b64 (strip_data_image_urls s)) ∧
    (fix_style_tags (strip_long_b64 (strip_data_image_urls s)) =
        strip_long_b64 (strip_data_image_urls s) →
      subst (matchPropLongUrl ("background-image:".toList))
          (strip_long_b64 (strip_data_image_urls s)) =
        strip_long_b64 (strip_data_image_urls s) →
      subst (matchPropLongUrl ("content:".toList))
          (strip_long_b64 (strip_data_image_urls s)) =
        strip_long_b64 (strip_data_image_urls s) →
      subst matchLongUrl (strip_long_b64 (strip_data_image_urls s)) =
        strip_long_b64 (strip_data_image_urls s) →
      noLongB64Run (clean_generated_html s)) := by
  refine ⟨strip_long_b64_noLong _, ?_⟩
  intro h3 h4a h4b h4c
  have hclean : clean_generated_html s =
      strip_long_b64 (strip_data_image_urls s) := by
    unfold clean_generated_html clean_steps
    simp only [bind, Except.bind, pure, Except.pure]
    unfold strip_long_url_props
    rw [h3, h4a, h4b, h4c, fix_quotes_eq_self]
  rw [hclean]
  exact strip_long_b64_noLong _

/-- Witness for the amended C7 at the empty document, where the later
passes change nothing. -/
theorem c7_b64_run_amended_witness :
    noLongB64Run (strip_long_b64 (strip_data_image_urls [])) ∧
    noLongB64Run (clean_generated_html []) :=
  ⟨(c7_b64_run_amended []).1, (c7_b64_run_amended []).2 rfl rfl rfl rfl⟩

/-- Concrete document refuting C7 as stated: a 1200-character base64 run,
then two 600-character runs separated by a `url(...)` construct with an
oversized argument. -/
def c7Input : List Char :=
  List.replicate 1200 'A' ++ ' ' :: (List.replicate 600 'A' ++ "url(".toList ++
    List.replicate 1000 '!' ++ ')' :: List.replicate 600 'A')

/-- The document after the base64-stripping pass: the 1200-run is gone,
the 600-runs survive. -/
def c7Mid : List Char :=
  ' ' :: (List.replicate 600 'A' ++ "url(".toList ++
    List.replicate 1000 '!' ++ ')' :: List.replicate 600 'A')

theorem b64run_replicate_append (c : Char) (hc : isBase64Char c = true)
    (j : Nat) (t : List Char) :
    b64run (List.replicate j c ++ t) = j + b64run t := by
  induction j with
  | zero => simp
  | succ i ih =>
    rw [List.replicate_succ, List.cons_append, b64run_cons_true c _ hc, ih]
    omega

theorem subst_b64_replicate_short (c : Char) (hc : isBase64Char c = true)
    (k : Nat) (t : List Char) (h : k + b64run t < 1000) :
    subst matchB64Run (List.replicate k c ++ t) =
      List.replicate k c ++ subst matchB64Run t := by
  induction k with
  | zero => simp
  | succ j ih =>
    rw [List.replicate_succ, List.cons_append]
    rw [subst_cons_none _ _ _ (matchB64Run_none_of_short _ (by
      rw [b64run_cons_true _ _ hc, b64run_replicate_append c hc j t]
      omega))]
    rw [ih (by omega)]
    simp

theorem matchDataImageUrl_bang (z : List Char) :
    matchDataImageUrl ("url(".toList ++ ('!' :: z)) = none := by
  unfold matchDataImageUrl
  rw [lit_append]
  show matchDataImageTail (optQuoteLen ('!' :: z)) ('!' :: z) = none
  rw [show optQuoteLen ('!' :: z) = 0 from by simp [optQuoteLen]]
  unfold matchDataImageTail
  rw [List.drop_zero, show ("data:image".toList) = 'd' :: "ata:image".toList from rfl,
    lit_head_ne 'd' '!' _ z (by decide)]

theorem c7_pass1 : strip_data_image_urls c7Input = c7Input := by
  unfold strip_data_image_urls c7Input
  simp only [List.append_assoc]
  have f1 : subst matchDataImageUrl (List.replicate 600 'A') =
      List.replicate 600 'A' :=
    subst_replicate_of_head_none _ 'A' 600
      (fun u => matchDataImageUrl_head_ne 'A' u (by decide))
  have f2 : subst matchDataImageUrl (')' :: List.replicate 600 'A') =
      ')' :: List.replicate 600 'A' := by
    rw [subst_cons_none _ _ _ (matchDataImageUrl_head_ne ')' _ (by decide)), f1]
  have f3 : subst matchDataImageUrl
      (List.replicate 1000 '!' ++ ')' :: List.replicate 600 'A') =
      List.replicate 1000 '!' ++ ')' :: List.replicate 600 'A' := by
    rw [subst_replicate_none _ '!' 1000 _
      (fun u => matchDataImageUrl_head_ne '!' u (by decide)), f2]
  have f4 : subst matchDataImageUrl
      ('(' :: (List.replicate 1000 '!' ++ ')' :: List.replicate 600 'A')) =
      '(' :: (List.replicate 1000 '!' ++ ')' :: List.replicate 600 'A') := by
    rw [subst_cons_none _ _ _ (matchDataImageUrl_head_ne '(' _ (by decide)), f3]
  have f5 : subst matchDataImageUrl
      ('l' :: '(' :: (List.replicate 1000 '!' ++ ')' :: List.replicate 600 'A')) =
      'l' :: '(' :: (List.replicate 1000 '!' ++ ')' :: List.replicate 600 'A') := by
    rw [subst_cons_none _ _ _ (matchDataImageUrl_head_ne 'l' _ (by decide)), f4]
  have f6 : subst matchDataImageUrl
      ('r' :: 'l' :: '(' :: (List.replicate 1000 '!' ++ ')' :: List.replicate 600 'A')) =
      'r' :: 'l' :: '(' :: (List.replicate 1000 '!' ++ ')' :: List.replicate 600 'A') := by
    rw [subst_cons_none _ _ _ (matchDataImageUrl_head_ne 'r' _ (by decide)), f5]
  have f7 : subst matchDataImageUrl
      ('u' :: 'r' :: 'l' :: '(' ::
        (List.replicate 1000 '!' ++ ')' :: List.replicate 600 'A')) =
      'u' :: 'r' :: 'l' :: '(' ::
        (List.replicate 1000 '!' ++ ')' :: List.replicate 600 'A') := by
    rw [subst_cons_none _ _ _
      (show matchDataImageUrl
          ('u' :: 'r' :: 'l' :: '(' ::
            (List.replicate 1000 '!' ++ ')' :: List.replicate 600 'A')) = none from
        matchDataImageUrl_bang
          (List.replicate 999 '!' ++ ')' :: List.replicate 600 'A')),
      f6]
  rw [subst_replicate_none _ 'A' 1200 _
    (fun u => matchDataImageUrl_head_ne 'A' u (by decide))]
  rw [subst_cons_none _ _ _ (matchDataImageUrl_head_ne ' ' _ (by decide))]
  rw [show ("url(".toList ++
      (List.replicate 1000 '!' ++ ')' :: List.replicate 600 'A')) =
      'u' :: 'r' :: 'l' :: '(' ::
        (List.replicate 1000 '!' ++ ')' :: List.replicate 600 'A') from rfl]
  rw [subst_replicate_none _ 'A' 600 _
    (fun u => matchDataImageUrl_head_ne 'A' u (by decide)), f7]

theorem c7_pass2 : strip_long_b64 c7Input = c7Mid := by
  unfold strip_long_b64 c7Input c7Mid
  simp only [List.append_assoc]
  have e1 : subst matchB64Run (List.replicate 600 'A') = List.replicate 600 'A' := by
    have h := subst_b64_replicate_short 'A' (by decide) 600 [] (by
      rw [show b64run ([] : List Char) = 0 from rfl]
      omega)
    rw [subst_nil, List.append_nil] at h
    exact h
  have e2 : subst matchB64Run (')' :: List.replicate 600 'A') =
      ')' :: List.replicate 600 'A' := by
    rw [subst_cons_none _ _ _ (matchB64Run_head_not ')' _ (by decide)), e1]
  have e3 : subst matchB64Run
      (List.replicate 1000 '!' ++ ')' :: List.replicate 600 'A') =
      List.replicate 1000 '!' ++ ')' :: List.replicate 600 'A' := by
    rw [subst_replicate_none _ '!' 1000 _
      (fun u => matchB64Run_head_not '!' u (by decide)), e2]
  have e4 : subst matchB64Run
      ('(' :: (List.replicate 1000 '!' ++ ')' :: List.replicate 600 'A')) =
      '(' :: (List.replicate 1000 '!' ++ ')' :: List.replicate 600 'A') := by
    rw [subst_cons_none _ _ _ (matchB64Run_head_not '(' _ (by decide)), e3]
  have e5 : subst matchB64Run
      ('l' :: '(' :: (List.replicate 1000 '!' ++ ')' :: List.replicate 600 'A')) =
      'l' :: '(' :: (List.replicate 1000 '!' ++ ')' :: List.replicate 600 'A') := by
    rw [subst_cons_none _ _ _ (matchB64Run_none_of_short _ (by
      rw [b64run_cons_true _ _ (by decide), b64run_cons_false _ _ (by decide)]
      omega)), e4]
  have e6 : subst matchB64Run
      ('r' :: 'l' :: '(' :: (List.replicate 1000 '!' ++ ')' :: List.replicate 600 'A')) =
      'r' :: 'l' :: '(' :: (List.replicate 1000 '!' ++ ')' :: List.replicate 600 'A') := by
    rw [subst_cons_none _ _ _ (matchB64Run_none_of_short _ (by
      rw [b64run_cons_true _ _ (by decide), b64run_cons_true _ _ (by decide),
        b64run_cons_false _ _ (by decide)]
      omega)), e5]
  have e7 : subst matchB64Run
      ('u' :: 'r' :: 'l' :: '(' :: (List.replicate 1000 '!' ++ ')' :: List.replicate 600 'A')) =
      'u' :: 'r' :: 'l' :: '(' :: (List.replicate 1000 '!' ++ ')' :: List.replicate 600 'A') := by
    rw [subst_cons_none _ _ _ (matchB64Run_none_of_short _ (by
      rw [b64run_cons_true _ _ (by decide), b64run_cons_true _ _ (by decide),
        b64run_cons_true _ _ (by decide), b64run_cons_false _ _ (by decide)]
      omega)), e6]
  have e8 : subst matchB64Run (List.replicate 600 'A' ++
      ('u' :: 'r' :: 'l' :: '(' :: (List.replicate 1000 '!' ++ ')' :: List.replicate 600 'A'))) =
      List.replicate 600 'A' ++
      ('u' :: 'r' :: 'l' :: '(' :: (List.replicate 1000 '!' ++ ')' :: List.replicate 600 'A')) := by
    rw [subst_b64_replicate_short 'A' (by decide) 600 _ (by
      rw [b64run_cons_true _ _ (by decide), b64run_cons_true _ _ (by decide),
        b64run_cons_true _ _ (by decide), b64run_cons_false _ _ (by decide)]
      omega), e7]
  have hm : matchB64Run (List.replicate 1200 'A' ++ ' ' ::
      (List.replicate 600 'A' ++ ("url(".toList ++
        (List.replicate 1000 '!' ++ ')' :: List.replicate 600 'A')))) =
      some (1200, []) := by
    unfold matchB64Run
    rw [takeWhile_append_stop isBase64Char (List.replicate 1200 'A') ' ' _
      (fun x hx => by rw [List.eq_of_mem_replicate hx]; decide) (by decide)]
    simp only [List.length_replicate]
    rw [if_pos (by omega)]
  rw [show (List.replicate 1200 'A' ++ ' ' ::
      (List.replicate 600 'A' ++ ("url(".toList ++
        (List.replicate 1000 '!' ++ ')' :: List.replicate 600 'A')))) =
      'A' :: (List.replicate 1199 'A' ++ ' ' ::
      (List.replicate 600 'A' ++ ("url(".toList ++
        (List.replicate 1000 '!' ++ ')' :: List.replicate 600 'A')))) from rfl]
  rw [subst_cons_some _ _ _ 1200 []
    (show matchB64Run ('A' :: (List.replicate 1199 'A' ++ ' ' ::
        (List.replicate 600 'A' ++ ("url(".toList ++
          (List.replicate 1000 '!' ++ ')' :: List.replicate 600 'A'))))) =
      some (1200, []) from hm)]
  rw [List.drop_left' (show (List.replicate 1199 'A').length = 1200 - 1 from by
    rw [List.length_replicate])]
  rw [subst_cons_none _ _ _ (matchB64Run_head_not ' ' _ (by decide))]
  rw [show ("url(".toList ++ (List.replicate 1000 '!' ++ ')' :: List.replicate 600 'A')) =
    'u' :: 'r' :: 'l' :: '(' :: (List.replicate 1000 '!' ++ ')' :: List.replicate 600 'A')
    from rfl]
  rw [e8]
  rfl

theorem c7Mid_chars : ∀ c ∈ c7Mid, c = ' ' ∨ c = 'A' ∨ c = 'u' ∨ c = 'r' ∨
    c = 'l' ∨ c = '(' ∨ c = '!' ∨ c = ')' := by
  intro c hc
  unfold c7Mid at hc
  rw [show ("url(".toList) = ['u', 'r', 'l', '('] from rfl] at hc
  simp only [List.mem_cons, List.mem_append, List.mem_replicate,
    List.not_mem_nil, or_false] at hc
  tauto

theorem c7_pass3 : fix_style_tags c7Mid = c7Mid :=
  subst_eq_self_of_none _ _ (fun c hc u => matchStyleOpen_head_ne c u (by
    rcases c7Mid_chars c hc with h | h | h | h | h | h | h | h <;> subst h <;> decide))

theorem c7_pass4a :
    subst (matchPropLongUrl ("background-image:".toList)) c7Mid = c7Mid :=
  subst_eq_self_of_none _ _ (fun c hc u =>
    matchPropLongUrl_head_ne 'b' c ("ackground-image:".toList) u (by
      rcases c7Mid_chars c hc with h | h | h | h | h | h | h | h <;> subst h <;> decide))

theorem c7_pass4b :
    subst (matchPropLongUrl ("content:".toList)) c7Mid = c7Mid :=
  subst_eq_self_of_none _ _ (fun c hc u =>
    matchPropLongUrl_head_ne 'c' c ("ontent:".toList) u (by
      rcases c7Mid_chars c hc with h | h | h | h | h | h | h | h <;> subst h <;> decide))

theorem c7_pass4c : subst matchLongUrl c7Mid = ' ' :: List.replicate 1200 'A' := by
  unfold c7Mid
  simp only [List.append_assoc]
  have g1 : subst matchLongUrl (List.replicate 600 'A') = List.replicate 600 'A' :=
    subst_replicate_of_head_none _ 'A' 600
      (fun u => matchLongUrl_head_ne 'A' u (by decide))
  have g2 : matchLongUrl ("url(".toList ++
      (List.replicate 1000 '!' ++ ')' :: List.replicate 600 'A')) = some (1005, []) := by
    unfold matchLongUrl
    rw [lit_append]
    show matchLongUrlTail
      (List.replicate 1000 '!' ++ ')' :: List.replicate 600 'A') = some (1005, [])
    unfold matchLongUrlTail
    rw [takeWhile_append_stop _ (List.replicate 1000 '!') ')' (List.replicate 600 'A')
      (fun x hx => by rw [List.eq_of_mem_replicate hx]; decide) (by decide)]
    simp only [List.length_replicate]
    rw [if_neg (by omega)]
    rw [List.drop_left' (show (List.replicate 1000 '!').length = 1000 from by
      rw [List.length_replicate])]
    rfl
  have g3 : subst matchLongUrl ('u' :: 'r' :: 'l' :: '(' ::
      (List.replicate 1000 '!' ++ ')' :: List.replicate 600 'A')) =
      List.replicate 600 'A' := by
    rw [subst_cons_some _ _ _ 1005 []
      (show matchLongUrl ('u' :: 'r' :: 'l' :: '(' ::
        (List.replicate 1000 '!' ++ ')' :: List.replicate 600 'A')) = some (1005, [])
        from g2)]
    rw [show ('r' :: 'l' :: '(' ::
        (List.replicate 1000 '!' ++ ')' :: List.replicate 600 'A')) =
        ('r' :: 'l' :: '(' :: (List.replicate 1000 '!' ++ [')'])) ++
          List.replicate 600 'A' from by
      simp only [List.cons_append, List.append_assoc, List.nil_append]]
    rw [List.drop_left' (show ('r' :: 'l' :: '(' ::
        (List.replicate 1000 '!' ++ [')'])).length = 1005 - 1 from by
      simp only [List.length_cons, List.length_append, List.length_replicate]
      rfl)]
    rw [g1]
    rfl
  rw [subst_cons_none _ _ _ (matchLongUrl_head_ne ' ' _ (by decide))]
  rw [subst_replicate_none _ 'A' 600 _
    (fun u => matchLongUrl_head_ne 'A' u (by decide))]
  rw [show ("url(".toList ++ (List.replicate 1000 '!' ++ ')' :: List.replicate 600 'A')) =
    'u' :: 'r' :: 'l' :: '(' :: (List.replicate 1000 '!' ++ ')' :: List.replicate 600 'A')
    from rfl]
  rw [g3]
  rw [show (List.replicate 600 'A' ++ List.replicate 600 'A') =
    List.replicate 1200 'A' from by rw [← List.replicate_add]]

theorem c7_clean : clean_generated_html c7Input = ' ' :: List.replicate 1200 'A' := by
  unfold clean_generated_html clean_steps
  simp only [bind, Except.bind, pure, Except.pure]
  rw [c7_pass1, c7_pass2, c7_pass3]
  unfold strip_long_url_props
  rw [c7_pass4a, c7_pass4b, c7_pass4c, fix_quotes_eq_self]

/-- Counterexample to C7 as stated: `c7Input` contains a contiguous run
of 1200 base64-alphabet characters, and the output of
`clean_generated_html` on it contains that same run — the url()-stripping
pass deletes the oversized `url(...)` construct and thereby rejoins the
two 600-character runs that survived the base64-stripping pass. -/
theorem c7_b64_counterexample :
    1000 ≤ (List.replicate 1200 'A').length ∧
    (∀ c ∈ List.replicate 1200 'A', isBase64Char c = true) ∧
    List.IsInfix (List.replicate 1200 'A') c7Input ∧
    clean_generated_html c7Input = ' ' :: List.replicate 1200 'A' ∧
    List.IsInfix (List.replicate 1200 'A') (clean_generated_html c7Input) := by
  refine ⟨by rw [List.length_replicate]; omega, fun c hc => by
      rw [List.eq_of_mem_replicate hc]; decide,
    ?_, c7_clean, ?_⟩
  · exact ⟨[], ' ' :: (List.replicate 600 'A' ++ "url(".toList ++
      List.replicate 1000 '!' ++ ')' :: List.replicate 600 'A'), rfl⟩
  · refine ⟨[' '], [], ?_⟩
    rw [c7_clean]
    simp only [List.append_nil, List.cons_append, List.nil_append]
